import Mathlib

/-!
Shallow embedding of the company fuzzy-search API
(`src/app/search_query.py`, `src/app/company_request_handler.py`,
`src/app/companies_routes.py`, `src/app/company_unique_ids.py`,
`src/app/bulk_response.py`, `src/app/company_api_bulk_response.py`,
`src/app/companies_resource.py`) and proofs about the claims of the
specification.

Python dictionaries that serve as JSON fragments are embedded as inductive
types whose constructors record exactly the fields the source writes;
Python `dict` objects used as finite maps become association lists with
insert-or-replace semantics; Python sets become `Finset`; generators become
lists together with an explicit "remaining elements" cursor; `randint` draws
become an explicit stream of pre-drawn values (one list entry per draw);
unbounded retry loops take that stream as fuel.
-/

namespace CompanyApi

/-- A JSON scalar appearing as a query value (`str` or `int` in the source). -/
inductive JVal where
  | nat (n : Nat)
  | str (s : String)
deriving DecidableEq

/-- A single query clause as built by `SearchQuery.fuzzy_match`,
`SearchQuery.exact_match` and `SearchQuery.filter`:
`matchFuzzy field q` stands for `{'match': {field: {'query': q, 'fuzziness': 'auto'}}}`
and `term field q` stands for `{'term': {field: q}}`. -/
inductive Clause where
  | matchFuzzy (field : String) (query : JVal)
  | term (field : String) (query : JVal)
deriving DecidableEq

/-- The boolean query produced by `SearchQuery.build_query`:
`{'bool': {'must': ..., 'filter': ...}}`. -/
structure Query where
  must : List Clause
  filter : List Clause
deriving DecidableEq

/-- `SearchQuery.__init__` state: the index name and `max_num_results`
(a Python `int`). -/
structure SearchQuery where
  index : String
  max_num_results : Int
deriving DecidableEq

/-- `SearchQuery.fuzzy_match` (src/app/search_query.py lines 23-42). -/
def SearchQuery.fuzzy_match (field : String) (query : JVal) : Clause :=
  .matchFuzzy field query

/-- `SearchQuery.exact_match` (src/app/search_query.py lines 44-61). -/
def SearchQuery.exact_match (field : String) (query : JVal) : Clause :=
  .term field query

/-- `SearchQuery.filter` (src/app/search_query.py lines 63-80): a term clause
on the field's `.keyword` sub-field. -/
def SearchQuery.filter (field : String) (query : JVal) : Clause :=
  .term (field ++ ".keyword") query

/-- `SearchQuery.build_query` (src/app/search_query.py lines 82-106).
`filters or []` evaluates to `[]` when `filters` is `None` or the empty
list, and to `filters` otherwise; both cases are `filters.getD []`. -/
def SearchQuery.build_query (queries : List Clause)
    (filters : Option (List Clause)) : Query :=
  { must := queries, filter := filters.getD [] }

/-- Errors surfaced to the HTTP layer: `elasticsearch.NotFoundError` and
`werkzeug.exceptions.BadRequest`, each carrying its message. -/
inductive ApiError where
  | notFound (msg : String)
  | badRequest (msg : String)
deriving DecidableEq

/-- `SearchQuery.perform_search` (src/app/search_query.py lines 108-126):
sends the query with `size = max_num_results` to the engine and returns the
hit list.  The engine (`es_client.search`) is an external collaborator,
abstracted as a function from query and size to the hit list. -/
def SearchQuery.perform_search (engine : Query → Int → List α)
    (sq : SearchQuery) (query : Query) : List α :=
  engine query sq.max_num_results

/-- `SearchQuery.perform_search_by_id` (src/app/search_query.py lines
126-154): exact-match query on the `id` field; `response[0]` raises
`IndexError` on an empty hit list, which the source converts to
`NotFoundError` with the given message. -/
def SearchQuery.perform_search_by_id (engine : Query → Int → List α)
    (sq : SearchQuery) (id_ : Nat) : Except ApiError α :=
  let query := SearchQuery.exact_match "id" (.nat id_)
  let response := sq.perform_search engine (SearchQuery.build_query [query] none)
  match response with
  | [] => .error (.notFound ("document with company id " ++ toString id_ ++
      " was not found in Elasticsearch " ++ sq.index ++ " index."))
  | h :: _ => .ok h

/-- `CompanyRequestHandler.validate_search_size_header`
(src/app/company_request_handler.py lines 186-210): the parsed
`X-Max-Results-Per-Query` header (absent = `none`) defaults to 1, values
outside `[1,5]` raise `BadRequest`, and otherwise a `SearchQuery` on the
`companies` index with that cap is returned.  The function performs no
engine call on any path. -/
def validate_search_size_header (headerVal : Option Int) :
    Except ApiError SearchQuery :=
  let max_results := match headerVal with
    | none => 1
    | some v => v
  if max_results < 1 ∨ max_results > 5 then
    .error (.badRequest
      "X-Max-Results-Per-Query header value must be an integer between 1 and 5.")
  else
    .ok { index := "companies", max_num_results := max_results }

/-- One element of the `msearch` request body list: the source's loop
extends the list with a header `{'request_cache': True}` followed by a body
`{'query': ..., 'size': max_num_results}` for every query. -/
inductive MsearchPart where
  | head (request_cache : Bool)
  | body (query : Query) (size : Int)
deriving DecidableEq

/-- `SearchQuery.build_multisearch_body` (src/app/search_query.py lines
156-175): `msearch_query.extend([req_head, req_body])` once per query, in
order. -/
def SearchQuery.build_multisearch_body (sq : SearchQuery)
    (queries : List Query) : List MsearchPart :=
  queries.foldl
    (fun msearch_query query =>
      msearch_query ++ [.head true, .body query sq.max_num_results]) []

/-- The truncation loop inside `SearchQuery.perform_multisearch`
(src/app/search_query.py lines 193-202): starting from an empty list and
`current_num_of_results = 0`, append each hit only while the counter is
below `max_num_results`. -/
def truncateHits (max_num_results : Int) (hits : List α) : List α :=
  (hits.foldl
    (fun acc hit =>
      if acc.2 < max_num_results then (acc.1 ++ [hit], acc.2 + 1) else acc)
    (([] : List α), (0 : Int))).1

/-- `SearchQuery.perform_multisearch` (src/app/search_query.py lines
177-202): the engine (`es_client.msearch`) is abstracted as a function from
the multi-search body to the per-sub-query hit lists
(`response['responses']`, one entry per submitted sub-request); the source
yields one truncated hit list per response, in order. -/
def SearchQuery.perform_multisearch (engine : List MsearchPart → List (List α))
    (sq : SearchQuery) (multisearch_body : List MsearchPart) : List (List α) :=
  (engine multisearch_body).map (truncateHits sq.max_num_results)

/-! ## Identity allocator (`src/app/company_unique_ids.py`) -/

/-- `MIN_ID` (src/app/company_unique_ids.py line 4). -/
def MIN_ID : Nat := 10000

/-- `MAX_ID` (src/app/company_unique_ids.py line 4). -/
def MAX_ID : Nat := 999999999

/-- The retry loop of `CompanyUniqueIds.generate`: draw `randint` values
(pre-drawn stream `randoms`, one entry per draw) until one is outside the
live set `ids`.  The source has no exit other than finding a free value, so
exhausting the stream (`none`) means the loop is still running after that
many draws. -/
def drawUntilFree : List Nat → Finset Nat → Option Nat
  | [], _ => none
  | r :: rs, ids => if r ∈ ids then drawUntilFree rs ids else some r

/-- `CompanyUniqueIds.generate` (src/app/company_unique_ids.py lines 39-52):
find a value not in `cls.ids`, add it to the set, return it.  `none` means
the retry loop has not terminated within the supplied stream of draws. -/
def generate (randoms : List Nat) (ids : Finset Nat) :
    Option (Nat × Finset Nat) :=
  match drawUntilFree randoms ids with
  | none => none
  | some id_ => some (id_, insert id_ ids)

/-- A sequence of `CompanyUniqueIds.generate` calls, one per stream of
draws, threading the live set; `none` if any call fails to terminate within
its stream. -/
def generateN : List (List Nat) → Finset Nat → Option (List Nat × Finset Nat)
  | [], ids => some ([], ids)
  | randoms :: rest, ids =>
    (generate randoms ids).bind (fun ri =>
      (generateN rest ri.2).map (fun oi => (ri.1 :: oi.1, oi.2)))

/-! ## Raw bulk report and `BulkResponse.errors` (`src/app/bulk_response.py`) -/

/-- One failure descriptor from the engine's raw bulk report: the source
reads `message[self.operation_type]['error']['caused_by']['reason']` (the
error text) and `message[self.operation_type]['_id']` (the engine handle). -/
structure RawFailure where
  esId : String
  reason : String
deriving DecidableEq

/-- `raw_response`: the engine's `(successCount, perItemFailures)` pair
returned by `elasticsearch.helpers.bulk`. -/
structure RawReport where
  successCount : Nat
  failures : List RawFailure
deriving DecidableEq

/-- The `BulkResponse` dataclass (src/app/bulk_response.py lines 8-27):
raw engine report, operation type and the locally collected internal
errors. -/
structure BulkResponse where
  raw_response : RawReport
  operation_type : String
  internal_errors : List (Nat × String)
deriving DecidableEq

/-- Python `dict` assignment `m[k] = v` on an association list: replace the
value at an existing key, or append a new binding. -/
def dictInsert (m : List (Nat × String)) (k : Nat) (v : String) :
    List (Nat × String) :=
  if m.any (fun p => p.1 == k) then
    m.map (fun p => if p.1 == k then (k, v) else p)
  else
    m ++ [(k, v)]

/-- One attempt of the regex `"id":(\d+)` at a fixed start position:
succeed exactly when the text starts with the literal `"id":` followed by
at least one digit, returning the value of the maximal digit run. -/
def idTagValue (l : List Char) : Option Nat :=
  match l with
  | '"' :: 'i' :: 'd' :: '"' :: ':' :: rest =>
    match rest.span Char.isDigit with
    | (d :: ds, _) =>
      some ((d :: ds).foldl (fun acc c => acc * 10 + (c.toNat - 48)) 0)
    | ([], _) => none
  | _ => none

/-- `re.search(r'"id":(\d+)', msg).group(1)` on the character list of the
message: try the pattern at every start position from the left and return
the first (leftmost) success.  `none` models `re.search` returning no
match (on which the source would raise). -/
def findIdMatch : List Char → Option Nat
  | [] => none
  | c :: cs =>
    match idTagValue (c :: cs) with
    | some n => some n
    | none => findIdMatch cs

/-- Identifier extraction from an engine error message
(src/app/bulk_response.py line 42). -/
def parseIdFromMsg (s : String) : Option Nat :=
  findIdMatch s.data

/-- The per-failure key of `BulkResponse.errors` (src/app/bulk_response.py
lines 39-43): the reverse direction of the handle cache
(`CompanyUniqueIds.get_ids_cache_map()[es_id]`, given here as the
association list `cacheRev` from engine handle to company id), falling back
on `KeyError` to the identifier parsed out of the error message text. -/
def resolveFailureId (cacheRev : List (String × Nat)) (f : RawFailure) :
    Option Nat :=
  match cacheRev.lookup f.esId with
  | some company_id => some company_id
  | none => parseIdFromMsg f.reason

/-- The engine-failure layer of `BulkResponse.errors`
(src/app/bulk_response.py lines 36-44): fold the raw failures into a dict
keyed by resolved company id; `none` models the unhandled exception when a
failure can neither be reverse-resolved nor parsed. -/
def engineErrorsMap (cacheRev : List (String × Nat)) (raw : List RawFailure) :
    Option (List (Nat × String)) :=
  raw.foldlM
    (fun error f =>
      (resolveFailureId cacheRev f).map (fun cid => dictInsert error cid f.reason))
    []

/-- `BulkResponse.errors` (src/app/bulk_response.py lines 33-48): the
engine-failure layer overlaid with the internal (local pre-flight) errors,
which are written last and therefore overwrite.  The source's
`if self._internal_errors:` guard is the identity fold for an empty list. -/
def BulkResponse.errors (cacheRev : List (String × Nat)) (b : BulkResponse) :
    Option (List (Nat × String)) :=
  (engineErrorsMap cacheRev b.raw_response.failures).map
    (fun error =>
      b.internal_errors.foldl (fun m p => dictInsert m p.1 p.2) error)

/-! ## Bulk API response bodies (`src/app/company_api_bulk_response.py`) -/

/-- A bulk add/update request element: its `id` field plus the remaining
payload, opaque here. -/
structure Elem where
  id : Nat
  payload : String
deriving DecidableEq

/-- A bulk request item as stored in the response body: a bare id for
deletes (`request_data['ids']` entries) or a whole element for add/update
(`bulk_element: Mapping[str, Any] | int`). -/
abbrev RequestItem := Sum Nat Elem

/-- One entry of the response body:
`{'request': bulk_element, 'response': response_msg}`. -/
structure OutcomeEntry where
  request : RequestItem
  response : String
deriving DecidableEq

/-- `CompanyApiBulkResponse.process_single_bulk_element`
(src/app/company_api_bulk_response.py lines 70-83): append the mapped
request/response pair to the response body. -/
def process_single_bulk_element (response : List OutcomeEntry)
    (bulk_element : RequestItem) (response_msg : String) : List OutcomeEntry :=
  response ++ [⟨bulk_element, response_msg⟩]

/-- `CompanyApiBulkResponse.create_bulk_delete_resp`
(src/app/company_api_bulk_response.py lines 29-38).  `errors_present` is
`bool(len(errors))`; `id_ in errors` is `(errors.lookup id_).isSome`, and
`errors[id_]` is read only under that guard. -/
def create_bulk_delete_resp (ids : List Nat) (errors : List (Nat × String)) :
    List OutcomeEntry :=
  let errors_present : Bool := errors.length != 0
  ids.foldl
    (fun response id_ =>
      if errors_present && (errors.lookup id_).isSome then
        process_single_bulk_element response (.inl id_)
          ((errors.lookup id_).getD "")
      else
        process_single_bulk_element response (.inl id_) "deleted")
    []

/-- `CompanyApiBulkResponse.create_bulk_update_resp`
(src/app/company_api_bulk_response.py lines 40-48). -/
def create_bulk_update_resp (elements : List Elem)
    (errors : List (Nat × String)) : List OutcomeEntry :=
  let errors_present : Bool := errors.length != 0
  elements.foldl
    (fun response element =>
      if errors_present && (errors.lookup element.id).isSome then
        process_single_bulk_element response (.inr element)
          ((errors.lookup element.id).getD "")
      else
        process_single_bulk_element response (.inr element) "updated")
    []

/-- `CompanyApiBulkResponse.create_bulk_add_resp`
(src/app/company_api_bulk_response.py lines 49-53): every element is mapped
to `'created'`, with no check of the error map. -/
def create_bulk_add_resp (elements : List Elem) : List OutcomeEntry :=
  elements.foldl
    (fun response element =>
      process_single_bulk_element response (.inr element) "created")
    []

/-- The bulk request body together with its operation type: the callers
pair `op_type = 'delete'` with a `{'ids': [...]}` body and
`op_type = 'index'` / `'update'` with a list of company objects. -/
inductive BulkRequestData where
  | deleteIds (ids : List Nat)
  | updateElems (elements : List Elem)
  | addElems (elements : List Elem)
deriving DecidableEq

/-- `CompanyApiBulkResponse.create_bulk_resp`
(src/app/company_api_bulk_response.py lines 55-68): dispatch on the
operation type. -/
def create_bulk_resp : BulkRequestData → List (Nat × String) → List OutcomeEntry
  | .addElems elements, _ => create_bulk_add_resp elements
  | .deleteIds ids, errors => create_bulk_delete_resp ids errors
  | .updateElems elements, errors => create_bulk_update_resp elements errors

/-! ## Bulk delete and the identity / handle-cache state
(`src/app/companies_resource.py` lines 189-231,
`src/app/company_unique_ids.py`) -/

/-- A key of the single cache dict
`CompanyUniqueIds._company_id_to_elasticsearch_id_cache`, which holds both
directions: company id (`int`) keys mapped to engine handles and engine
handle (`str`) keys mapped back to company ids. -/
abbrev CacheKey := Sum Nat String

/-- The process-wide identity state: `CompanyUniqueIds.ids` (the live
identifier set) and the handle cache dict (both directions, as stored in
the one Python dict). -/
structure IdentityState where
  ids : Finset Nat
  cache : List (CacheKey × CacheKey)
deriving DecidableEq

/-- Modelled from the spec: `CompanyUniqueIds.remove_ids_from_cache_map`
is called by `CompaniesResource.bulk_delete` and
`CompaniesResource.delete_company` but is not defined in
`company_unique_ids.py`; the spec's HandleCache contract
("`invalidate(identifier)` removes both directions of the mapping")
supplies its intended behaviour: drop the entry at the key together with
the mirror entry at its value. -/
def remove_ids_from_cache_map (st : IdentityState) (key : CacheKey) :
    IdentityState :=
  match st.cache.lookup key with
  | none => st
  | some v =>
    { st with
      cache := st.cache.filter (fun p => !(p.1 == key) && !(p.1 == v)) }

/-- A delete action yielded by the `actions` generator inside
`CompaniesResource.bulk_delete` (src/app/companies_resource.py lines
202-215): `{'_op_type': 'delete', '_index': 'companies', '_id': handle}`.
Only the handle varies. -/
structure DeleteAction where
  esId : String
deriving DecidableEq

/-- The `actions` generator body of `CompaniesResource.bulk_delete`: for
each company, resolving `company.elasticsearch_id` either yields a delete
action or (on `NotFoundError` / `BadRequestError`) records an internal
error for the company id and skips the item.  Resolution is abstracted as
`resolve` (it reads the cache and may only insert entries, never remove
them). -/
def mkDeleteActions (resolve : Nat → Except String String)
    (companies : List Nat) : List DeleteAction × List (Nat × String) :=
  companies.foldl
    (fun acc company_id =>
      match resolve company_id with
      | .ok handle => (acc.1 ++ [⟨handle⟩], acc.2)
      | .error msg => (acc.1, acc.2 ++ [(company_id, msg)]))
    ([], [])

/-- `CompaniesResource.bulk_delete` (src/app/companies_resource.py lines
189-231).  `elasticsearch.helpers.bulk(es_client, action_generator, ...)`
consumes the `actions` generator completely to submit the batch, so by the
time the source reaches `for action in action_generator:` the generator's
remaining elements are `actionsList.drop actionsList.length`; that loop is
the only place the source touches `CompanyUniqueIds` state on this path
(`CompanyUniqueIds.remove` is never called here). -/
def bulk_delete (resolve : Nat → Except String String)
    (engineReport : RawReport) (st : IdentityState) (companies : List Nat) :
    BulkResponse × IdentityState :=
  let acts := mkDeleteActions resolve companies
  let remainingAfterBulk : List DeleteAction := acts.1.drop acts.1.length
  let bulk_response : BulkResponse := ⟨engineReport, "delete", acts.2⟩
  let st2 := remainingAfterBulk.foldl
    (fun s action => remove_ids_from_cache_map s (.inr action.esId)) st
  (bulk_response, st2)

/-! ## Request-field routing (`src/app/companies_routes.py` lines 45-70) -/

/-- Python truthiness of a request field value: `None` and the empty string
are falsy, any other string is truthy. -/
def truthy : Option String → Bool
  | some v => v != ""
  | none => false

/-- `build_query_from_request` (src/app/companies_routes.py lines 45-70):
walk the request mapping; truthy `name`/`locality` values become fuzzy
match clauses on the lower-cased value, every other truthy field becomes a
filter clause on the lower-cased value, and falsy fields contribute
nothing.  The request mapping is embedded as an association list of field
name to optional value (absent fields are simply not listed). -/
def build_query_from_request (request_data : List (String × Option String)) :
    Query :=
  let qf := request_data.foldl
    (fun acc p =>
      match p.2 with
      | some value =>
        if value != "" then
          if p.1 == "name" || p.1 == "locality" then
            (acc.1 ++ [SearchQuery.fuzzy_match p.1 (.str value.toLower)], acc.2)
          else
            (acc.1, acc.2 ++ [SearchQuery.filter p.1 (.str value.toLower)])
        else acc
      | none => acc)
    (([] : List Clause), ([] : List Clause))
  SearchQuery.build_query qf.1 (some qf.2)

/-- The field name a clause targets, as written in the query JSON (for
filter clauses this is the `.keyword` sub-field name). -/
def clauseKey : Clause → String
  | .matchFuzzy field _ => field
  | .term field _ => field

/-- Whether a clause targets the base field `f`, either directly or through
its `.keyword` sub-field. -/
def mentionsField (f : String) (c : Clause) : Bool :=
  clauseKey c == f || clauseKey c == f ++ ".keyword"

/-! ## Theorems -/

/-- Claim C10: when the max-results-per-query header is absent (parsed
value `None`), `validate_search_size_header` does not reject the request
and returns a query object on the `companies` index whose per-query result
cap defaults to exactly 1. -/
theorem validate_search_size_header_none_defaults_to_one :
    validate_search_size_header none =
      .ok { index := "companies", max_num_results := 1 } := rfl

/-- Claim C8: a supplied max-results-per-query header value strictly below
1 or strictly above 5 makes `validate_search_size_header` fail with a
BadRequest error (the function makes no engine call on any path), while a
value within `[1,5]` yields a `SearchQuery` whose per-query result cap
equals that value. -/
theorem validate_search_size_header_bounds (v : Int) :
    (v < 1 ∨ 5 < v →
      validate_search_size_header (some v) =
        .error (.badRequest
          "X-Max-Results-Per-Query header value must be an integer between 1 and 5."))
  ∧ (1 ≤ v → v ≤ 5 →
      validate_search_size_header (some v) =
        .ok { index := "companies", max_num_results := v }) := by
  constructor
  · intro h
    show (if v < 1 ∨ v > 5 then _ else _) = _
    rw [if_pos h]
  · intro h1 h2
    show (if v < 1 ∨ v > 5 then _ else _) = _
    rw [if_neg (by omega)]

/-- Concrete instance of `validate_search_size_header_bounds`: the header
value 6 is rejected and the header value 3 yields cap 3. -/
theorem validate_search_size_header_bounds_witness :
    validate_search_size_header (some 6) =
      .error (.badRequest
        "X-Max-Results-Per-Query header value must be an integer between 1 and 5.")
    ∧ validate_search_size_header (some 3) =
      .ok { index := "companies", max_num_results := 3 } :=
  ⟨(validate_search_size_header_bounds 6).1 (by omega),
   (validate_search_size_header_bounds 3).2 (by omega) (by omega)⟩

/-- Claim C7: `perform_search_by_id` fails with a Not-Found error whenever
the exact-match query on the identifier field returns zero hits (never an
empty or undefined success), and returns the first hit when at least one
hit comes back. -/
theorem perform_search_by_id_zero_hits (engine : Query → Int → List α)
    (sq : SearchQuery) (id_ : Nat) :
    (engine (SearchQuery.build_query [SearchQuery.exact_match "id" (.nat id_)] none)
        sq.max_num_results = [] →
      sq.perform_search_by_id engine id_ =
        .error (.notFound ("document with company id " ++ toString id_ ++
          " was not found in Elasticsearch " ++ sq.index ++ " index.")))
  ∧ (∀ h t,
      engine (SearchQuery.build_query [SearchQuery.exact_match "id" (.nat id_)] none)
          sq.max_num_results = h :: t →
      sq.perform_search_by_id engine id_ = .ok h) := by
  constructor
  · intro he
    simp [SearchQuery.perform_search_by_id, SearchQuery.perform_search, he]
  · intro h t he
    simp [SearchQuery.perform_search_by_id, SearchQuery.perform_search, he]

/-- Concrete instance of `perform_search_by_id_zero_hits`: an engine with
no document for identifier 999 makes `perform_search_by_id` return
NotFound, and an engine returning hits makes it return the first hit. -/
theorem perform_search_by_id_zero_hits_witness :
    SearchQuery.perform_search_by_id (fun _ _ => ([] : List Nat))
        ⟨"companies", 1⟩ 999 =
      .error (.notFound
        "document with company id 999 was not found in Elasticsearch companies index.")
    ∧ SearchQuery.perform_search_by_id (fun _ _ => ([7, 8] : List Nat))
        ⟨"companies", 1⟩ 999 = .ok 7 := by
  constructor
  · have h := (perform_search_by_id_zero_hits (fun _ _ => ([] : List Nat))
      ⟨"companies", 1⟩ 999).1 rfl
    simpa using h
  · exact (perform_search_by_id_zero_hits (fun _ _ => ([7, 8] : List Nat))
      ⟨"companies", 1⟩ 999).2 7 [8] rfl

/-- Claim C2 (refuted; the code releases nothing): `bulk_delete` returns
the identity state exactly as it received it — no handle-cache entry is
removed and no identifier is released, for successfully deleted items and
failed items alike — because the cleanup loop `for action in
action_generator:` runs over the generator already exhausted by
`elasticsearch.helpers.bulk`, and `CompanyUniqueIds.remove` is never
called on this path. -/
theorem bulk_delete_releases_nothing (resolve : Nat → Except String String)
    (engineReport : RawReport) (st : IdentityState) (companies : List Nat) :
    (bulk_delete resolve engineReport st companies).2 = st := by
  simp [bulk_delete, List.drop_length]

/-- Every value the `generate` retry loop settles on was free and came from
the stream of draws. -/
theorem drawUntilFree_spec : ∀ (randoms : List Nat) (ids : Finset Nat) (r : Nat),
    drawUntilFree randoms ids = some r → r ∉ ids ∧ r ∈ randoms
  | [], _, _, h => by simp [drawUntilFree] at h
  | a :: rs, ids, r, h => by
    by_cases ha : a ∈ ids
    · rw [drawUntilFree, if_pos ha] at h
      rcases drawUntilFree_spec rs ids r h with ⟨h1, h2⟩
      exact ⟨h1, List.mem_cons_of_mem a h2⟩
    · rw [drawUntilFree, if_neg ha] at h
      cases h
      exact ⟨ha, List.mem_cons_self a rs⟩

/-- A successful `generate` call returns a value that was not live, drawn
from its stream, and records it as live in the returned set. -/
theorem generate_spec (randoms : List Nat) (ids : Finset Nat) (r : Nat)
    (ids' : Finset Nat) (h : generate randoms ids = some (r, ids')) :
    r ∉ ids ∧ r ∈ randoms ∧ ids' = insert r ids ∧ r ∈ ids' := by
  unfold generate at h
  cases hd : drawUntilFree randoms ids with
  | none => rw [hd] at h; cases h
  | some r0 =>
    rw [hd] at h
    simp only [Option.some.injEq, Prod.mk.injEq] at h
    obtain ⟨rfl, rfl⟩ := h
    rcases drawUntilFree_spec randoms ids r0 hd with ⟨h1, h2⟩
    exact ⟨h1, h2, rfl, Finset.mem_insert_self r0 ids⟩

/-- Claim C3: across any sequence of successful `generate` calls, the
returned identifiers are pairwise distinct, each lies within
`[MIN_ID, MAX_ID]` whenever the draws do (as `randint(MIN_ID, MAX_ID)`
guarantees), each is absent from the initial live set (so `generate` never
returns an identifier that was marked live when it was called), each is
recorded as live in the final set, and the final live set is exactly the
initial one extended by the returned identifiers.  The last conjunct
records the single-call shape: the identifier is added to the live set
before it is returned. -/
theorem generateN_unique_in_range : ∀ (streams : List (List Nat))
    (ids : Finset Nat) (out : List Nat) (idsF : Finset Nat),
    generateN streams ids = some (out, idsF) →
    (∀ s ∈ streams, ∀ x ∈ s, MIN_ID ≤ x ∧ x ≤ MAX_ID) →
    out.Nodup
  ∧ (∀ r ∈ out, MIN_ID ≤ r ∧ r ≤ MAX_ID ∧ r ∉ ids ∧ r ∈ idsF)
  ∧ idsF = ids ∪ out.toFinset
  | [], ids, out, idsF, h, _ => by
    cases h
    simp
  | randoms :: rest, ids, out, idsF, h, hrange => by
    unfold generateN at h
    cases hg : generate randoms ids with
    | none => rw [hg] at h; cases h
    | some ri =>
      rw [hg] at h
      simp only [Option.some_bind] at h
      cases hn : generateN rest ri.2 with
      | none => rw [hn] at h; cases h
      | some oi =>
        rw [hn] at h
        simp only [Option.map_some', Option.some.injEq, Prod.mk.injEq] at h
        obtain ⟨rfl, rfl⟩ := h
        rcases generate_spec randoms ids ri.1 ri.2 (by rw [hg]) with
          ⟨hfree, hdrawn, hins, hmem⟩
        rcases generateN_unique_in_range rest ri.2 oi.1 oi.2 (by rw [hn])
          (fun s hs => hrange s (List.mem_cons_of_mem randoms hs)) with
          ⟨hnd, hall, hunion⟩
        have hr_range := hrange randoms (List.mem_cons_self randoms rest)
          ri.1 hdrawn
        refine ⟨?_, ?_, ?_⟩
        · refine List.nodup_cons.mpr ⟨fun hmem' => ?_, hnd⟩
          have := (hall ri.1 hmem').2.2.1
          rw [hins] at this
          exact this (Finset.mem_insert_self ri.1 ids)
        · intro r hr
          rcases List.mem_cons.mp hr with rfl | hr'
          · refine ⟨hr_range.1, hr_range.2, hfree, ?_⟩
            rw [hunion]
            exact Finset.mem_union_left _ hmem
          · rcases hall r hr' with ⟨ha, hb, hc, hd⟩
            refine ⟨ha, hb, fun hrids => ?_, hd⟩
            exact hc (by rw [hins]; exact Finset.mem_insert_of_mem hrids)
        · rw [hunion, hins]
          simp [Finset.insert_union, Finset.union_insert]

/-- Concrete instance of `generateN_unique_in_range`: two calls, the second
of which retries once because its first draw collides with the first
call's identifier. -/
theorem generateN_unique_in_range_witness :
    ([10000, 10001] : List Nat).Nodup
    ∧ (∀ r ∈ ([10000, 10001] : List Nat),
        MIN_ID ≤ r ∧ r ≤ MAX_ID ∧ r ∉ (∅ : Finset Nat)
          ∧ r ∈ insert 10001 (insert 10000 (∅ : Finset Nat))) := by
  have h := generateN_unique_in_range [[10000], [10000, 10001]] ∅
    [10000, 10001] (insert 10001 (insert 10000 ∅)) (by decide) (by decide)
  exact ⟨h.1, h.2.1⟩

/-- When every value a stream can produce is already live, the retry loop
never settles. -/
theorem drawUntilFree_eq_none : ∀ (randoms : List Nat) (ids : Finset Nat),
    (∀ x ∈ randoms, x ∈ ids) → drawUntilFree randoms ids = none
  | [], _, _ => rfl
  | a :: rs, ids, h => by
    rw [drawUntilFree, if_pos (h a (List.mem_cons_self a rs))]
    exact drawUntilFree_eq_none rs ids
      (fun x hx => h x (List.mem_cons_of_mem a hx))

/-- Claim C4 (refuted; the code loops forever): when every identifier of
the bounded range `[MIN_ID, MAX_ID]` is live, `generate` does not return
within any finite number of draws — all draws of `randint(MIN_ID, MAX_ID)`
land in the live set, the `while id_ in cls.ids` loop never exits, and the
source has no capacity-error path at all. -/
theorem generate_exhausted_never_returns (randoms : List Nat)
    (hrange : ∀ x ∈ randoms, MIN_ID ≤ x ∧ x ≤ MAX_ID) :
    generate randoms (Finset.Icc MIN_ID MAX_ID) = none := by
  have hdraw : drawUntilFree randoms (Finset.Icc MIN_ID MAX_ID) = none :=
    drawUntilFree_eq_none randoms _
      (fun x hx => Finset.mem_Icc.mpr (hrange x hx))
  rw [generate, hdraw]

/-- Concrete instance of `generate_exhausted_never_returns`: with the whole
range live, three in-range draws still leave `generate` unreturned. -/
theorem generate_exhausted_never_returns_witness :
    generate [10000, 54321, 999999999] (Finset.Icc MIN_ID MAX_ID) = none :=
  generate_exhausted_never_returns [10000, 54321, 999999999] (by decide)

/-- The per-item outcome rule of the reconciler as the spec states it: an
item whose identifier appears in the merged error map gets that error
message, every other item gets the operation's success tag. -/
def reconcileCell (errors : List (Nat × String)) (success : String)
    (id_ : Nat) : String :=
  match errors.lookup id_ with
  | some msg => msg
  | none => success

/-- The source's guard `errors_present and id_ in errors` (with the
subsequent `errors[id_]` read) computes exactly `reconcileCell`: when the
lookup succeeds the map is necessarily non-empty. -/
theorem bulk_cell_eq (errors : List (Nat × String)) (success : String)
    (id_ : Nat) :
    (if (errors.length != 0) && (errors.lookup id_).isSome
     then (errors.lookup id_).getD ""
     else success) = reconcileCell errors success id_ := by
  cases he : errors.lookup id_ with
  | none => simp [reconcileCell, he]
  | some msg =>
    have hne : errors ≠ [] := by
      intro hnil
      rw [hnil] at he
      cases he
    have hlen : errors.length ≠ 0 := fun h0 => hne (List.length_eq_zero.mp h0)
    simp [reconcileCell, he, hlen]

/-- The delete response body is the request id list mapped through the
per-item rule. -/
theorem create_bulk_delete_resp_eq (ids : List Nat)
    (errors : List (Nat × String)) :
    create_bulk_delete_resp ids errors =
      ids.map (fun id_ => ⟨.inl id_, reconcileCell errors "deleted" id_⟩) := by
  unfold create_bulk_delete_resp
  suffices h : ∀ acc : List OutcomeEntry,
      List.foldl (fun response id_ =>
        if (errors.length != 0) && (errors.lookup id_).isSome then
          process_single_bulk_element response (Sum.inl id_)
            ((errors.lookup id_).getD "")
        else process_single_bulk_element response (Sum.inl id_) "deleted")
        acc ids
      = acc ++ ids.map (fun id_ =>
          (⟨.inl id_, reconcileCell errors "deleted" id_⟩ : OutcomeEntry)) by
    simpa using h []
  intro acc
  induction ids generalizing acc with
  | nil => simp
  | cons a rest ih =>
    rw [List.foldl_cons, ih]
    by_cases hc : ((errors.length != 0) && (errors.lookup a).isSome) = true
    · have hcell := bulk_cell_eq errors "deleted" a
      rw [if_pos hc] at hcell
      rw [if_pos hc, List.map_cons, ← hcell]
      simp [process_single_bulk_element]
    · have hcell := bulk_cell_eq errors "deleted" a
      rw [if_neg hc] at hcell
      rw [if_neg hc, List.map_cons, ← hcell]
      simp [process_single_bulk_element]

/-- The update response body is the request element list mapped through
the per-item rule. -/
theorem create_bulk_update_resp_eq (elements : List Elem)
    (errors : List (Nat × String)) :
    create_bulk_update_resp elements errors =
      elements.map (fun e => ⟨.inr e, reconcileCell errors "updated" e.id⟩) := by
  unfold create_bulk_update_resp
  suffices h : ∀ acc : List OutcomeEntry,
      List.foldl (fun response element =>
        if (errors.length != 0) && (errors.lookup element.id).isSome then
          process_single_bulk_element response (Sum.inr element)
            ((errors.lookup element.id).getD "")
        else process_single_bulk_element response (Sum.inr element) "updated")
        acc elements
      = acc ++ elements.map (fun e =>
          (⟨.inr e, reconcileCell errors "updated" e.id⟩ : OutcomeEntry)) by
    simpa using h []
  intro acc
  induction elements generalizing acc with
  | nil => simp
  | cons a rest ih =>
    rw [List.foldl_cons, ih]
    by_cases hc : ((errors.length != 0) && (errors.lookup a.id).isSome) = true
    · have hcell := bulk_cell_eq errors "updated" a.id
      rw [if_pos hc] at hcell
      rw [if_pos hc, List.map_cons, ← hcell]
      simp [process_single_bulk_element]
    · have hcell := bulk_cell_eq errors "updated" a.id
      rw [if_neg hc] at hcell
      rw [if_neg hc, List.map_cons, ← hcell]
      simp [process_single_bulk_element]

/-- The add response body tags every request element `created`. -/
theorem create_bulk_add_resp_eq (elements : List Elem) :
    create_bulk_add_resp elements =
      elements.map (fun e => ⟨.inr e, "created"⟩) := by
  unfold create_bulk_add_resp
  suffices h : ∀ acc : List OutcomeEntry,
      List.foldl (fun response element =>
        process_single_bulk_element response (Sum.inr element) "created")
        acc elements
      = acc ++ elements.map (fun e => (⟨.inr e, "created"⟩ : OutcomeEntry)) by
    simpa using h []
  intro acc
  induction elements generalizing acc with
  | nil => simp
  | cons a rest ih =>
    rw [List.foldl_cons, ih]
    simp [process_single_bulk_element]

/-- Claim C1 amended (the stated claim fails for bulk add, see
`create_bulk_add_ignores_error_map`): for bulk delete and bulk update the
outcome list is exactly the original request list walked in order, each
item mapped to its merged-error-map message when its identifier has one
and to the operation's success tag otherwise; for bulk add every item is
tagged `created` unconditionally, with the raw report and the error map
ignored.  In all three cases the outcome list has exactly one entry per
request item, in request order. -/
theorem create_bulk_resp_per_item (ids : List Nat) (elements : List Elem)
    (errors : List (Nat × String)) :
    create_bulk_resp (.deleteIds ids) errors =
      ids.map (fun id_ => ⟨.inl id_, reconcileCell errors "deleted" id_⟩)
  ∧ create_bulk_resp (.updateElems elements) errors =
      elements.map (fun e => ⟨.inr e, reconcileCell errors "updated" e.id⟩)
  ∧ create_bulk_resp (.addElems elements) errors =
      elements.map (fun e => ⟨.inr e, "created"⟩)
  ∧ (create_bulk_resp (.deleteIds ids) errors).length = ids.length
  ∧ (create_bulk_resp (.updateElems elements) errors).length = elements.length
  ∧ (create_bulk_resp (.addElems elements) errors).length = elements.length := by
  have hdel := create_bulk_delete_resp_eq ids errors
  have hupd := create_bulk_update_resp_eq elements errors
  have hadd := create_bulk_add_resp_eq elements
  exact ⟨hdel, hupd, hadd, by simp [create_bulk_resp, hdel],
    by simp [create_bulk_resp, hupd], by simp [create_bulk_resp, hadd]⟩

/-- Claim C1 as stated is false at a concrete input: a bulk add whose
single request element has identifier 5, with the merged error map holding
the engine's message `boom` for identifier 5, still yields the success tag
`created` for that item rather than an error outcome carrying `boom`. -/
theorem create_bulk_add_ignores_error_map :
    create_bulk_resp (.addElems [⟨5, "acme"⟩]) [(5, "boom")] =
      [⟨.inr ⟨5, "acme"⟩, "created"⟩]
    ∧ ("created" : String) ≠ "boom" :=
  ⟨rfl, by decide⟩

/-- The multi-search body built by the `extend` loop is the concatenation
of one header/body pair per query, in order. -/
theorem build_multisearch_body_eq (sq : SearchQuery) (queries : List Query) :
    sq.build_multisearch_body queries =
      queries.flatMap (fun query => [.head true, .body query sq.max_num_results]) := by
  suffices h : ∀ (qs : List Query) (acc : List MsearchPart),
      qs.foldl (fun msearch_query query =>
        msearch_query ++ [.head true, .body query sq.max_num_results]) acc
      = acc ++ qs.flatMap (fun query => [.head true, .body query sq.max_num_results]) by
    simpa [SearchQuery.build_multisearch_body] using h queries []
  intro qs
  induction qs with
  | nil => intro acc; simp
  | cons q rest ih =>
    intro acc
    rw [List.foldl_cons, ih]
    simp

/-- The truncation loop keeps exactly the first `max_num_results.toNat`
hits: once the counter reaches the cap nothing more is appended. -/
theorem truncateHits_eq_take (m : Int) (hits : List α) :
    truncateHits m hits = hits.take m.toNat := by
  suffices key : ∀ (hits : List α) (acc : List α) (n : Int),
      (hits.foldl
        (fun acc hit => if acc.2 < m then (acc.1 ++ [hit], acc.2 + 1) else acc)
        (acc, n)).1 = acc ++ hits.take (m - n).toNat by
    simpa [truncateHits] using key hits [] 0
  intro hits
  induction hits with
  | nil => intro acc n; simp
  | cons h t ih =>
    intro acc n
    rw [List.foldl_cons]
    by_cases hn : n < m
    · rw [if_pos hn]
      show (t.foldl _ (acc ++ [h], n + 1)).1 = _
      rw [ih (acc ++ [h]) (n + 1)]
      have h1 : (m - n).toNat = (m - (n + 1)).toNat + 1 := by omega
      rw [h1, List.take_succ_cons]
      simp
    · rw [if_neg hn]
      show (t.foldl _ (acc, n)).1 = _
      rw [ih acc n]
      have h1 : (m - n).toNat = 0 := by omega
      simp [h1]

/-- The multi-search body holds two parts per query. -/
theorem build_multisearch_body_length (sq : SearchQuery)
    (queries : List Query) :
    (sq.build_multisearch_body queries).length = 2 * queries.length := by
  rw [build_multisearch_body_eq]
  induction queries with
  | nil => rfl
  | cons q rest ih =>
    rw [List.flatMap_cons, List.length_append, ih, List.length_cons]
    simp
    omega

/-- The body part at slot `2*i+1` of the multi-search body is the i-th
query paired with the configured size. -/
theorem build_multisearch_body_slot (sq : SearchQuery) (queries : List Query)
    (i : Nat) :
    (sq.build_multisearch_body queries)[2 * i + 1]? =
      (queries[i]?).map (fun q => MsearchPart.body q sq.max_num_results) := by
  rw [build_multisearch_body_eq]
  induction queries generalizing i with
  | nil => simp
  | cons q rest ih =>
    cases i with
    | zero => simp [List.flatMap_cons]
    | succ j =>
      have h2 : 2 * (j + 1) + 1 = (2 * j + 1) + 1 + 1 := by ring
      simp only [List.flatMap_cons, h2, List.cons_append, List.nil_append,
        List.getElem?_cons_succ]
      exact ih j

/-- Claim C6: for K submitted queries, the multi-search body carries one
header/body pair per query in order (the body at slot `2*i+1` holds query
`i` and the configured size), and executing it against any engine that
answers one response per submitted sub-request yields exactly K hit lists,
the i-th being the engine's i-th response truncated client-side to the
first `max_num_results` hits — hence every yielded list has at most the
configured maximum of hits, irrespective of how many the engine returned. -/
theorem perform_multisearch_round_trip
    (engine : List MsearchPart → List (List α)) (sq : SearchQuery)
    (queries : List Query)
    (hengine : 2 * (engine (sq.build_multisearch_body queries)).length
      = (sq.build_multisearch_body queries).length) :
    (sq.perform_multisearch engine (sq.build_multisearch_body queries)).length
        = queries.length
  ∧ (∀ i : Nat,
      (sq.perform_multisearch engine (sq.build_multisearch_body queries))[i]? =
        ((engine (sq.build_multisearch_body queries))[i]?).map
          (fun hits => hits.take sq.max_num_results.toNat))
  ∧ (∀ l ∈ sq.perform_multisearch engine (sq.build_multisearch_body queries),
      l.length ≤ sq.max_num_results.toNat)
  ∧ (∀ i : Nat, (sq.build_multisearch_body queries)[2 * i + 1]? =
      (queries[i]?).map (fun q => MsearchPart.body q sq.max_num_results)) := by
  have hbodylen := build_multisearch_body_length sq queries
  refine ⟨?_, ?_, ?_, build_multisearch_body_slot sq queries⟩
  · rw [SearchQuery.perform_multisearch, List.length_map]
    omega
  · intro i
    rw [SearchQuery.perform_multisearch, List.getElem?_map]
    cases (engine (sq.build_multisearch_body queries))[i]? with
    | none => rfl
    | some hits => simp [truncateHits_eq_take]
  · intro l hl
    rw [SearchQuery.perform_multisearch] at hl
    rcases List.mem_map.mp hl with ⟨hits, _, rfl⟩
    rw [truncateHits_eq_take]
    exact List.length_take_le _ _

/-- Concrete instance of `perform_multisearch_round_trip`: two queries,
an engine answering three hits for the first and one for the second, and a
configured cap of 2. -/
theorem perform_multisearch_round_trip_witness :
    (SearchQuery.perform_multisearch
        (fun _ => ([[1, 2, 3], [4]] : List (List Nat))) ⟨"companies", 2⟩
        (SearchQuery.build_multisearch_body ⟨"companies", 2⟩
          [⟨[], []⟩, ⟨[SearchQuery.exact_match "id" (.nat 1)], []⟩])).length = 2
  ∧ (∀ l ∈ SearchQuery.perform_multisearch
        (fun _ => ([[1, 2, 3], [4]] : List (List Nat))) ⟨"companies", 2⟩
        (SearchQuery.build_multisearch_body ⟨"companies", 2⟩
          [⟨[], []⟩, ⟨[SearchQuery.exact_match "id" (.nat 1)], []⟩]),
      l.length ≤ (2 : Int).toNat) := by
  have h := perform_multisearch_round_trip
    (fun _ => ([[1, 2, 3], [4]] : List (List Nat))) ⟨"companies", 2⟩
    [⟨[], []⟩, ⟨[SearchQuery.exact_match "id" (.nat 1)], []⟩] rfl
  exact ⟨h.1, h.2.2.1⟩

/-- Association-list lookup at the head's own key. -/
theorem lookup_cons_eq (p : Nat × String) (l : List (Nat × String)) (k : Nat)
    (h : k = p.1) : (p :: l).lookup k = some p.2 := by
  rcases p with ⟨k1, v1⟩
  subst h
  simp [List.lookup_cons]

/-- Association-list lookup skipping a head with a different key. -/
theorem lookup_cons_ne (p : Nat × String) (l : List (Nat × String)) (k : Nat)
    (h : k ≠ p.1) : (p :: l).lookup k = l.lookup k := by
  rcases p with ⟨k1, v1⟩
  have hb : (k == k1) = false := beq_eq_false_iff_ne.mpr h
  simp [List.lookup_cons, hb]

/-- Replacing in place stores the new value at the key. -/
theorem lookup_map_replace : ∀ (m : List (Nat × String)) (k : Nat) (v : String),
    m.any (fun p => p.1 == k) = true →
    (m.map (fun p => if p.1 == k then (k, v) else p)).lookup k = some v
  | [], _, _, h => by simp at h
  | p :: rest, k, v, h => by
    rw [List.map_cons]
    by_cases hp : p.1 = k
    · have hb : (p.1 == k) = true := by simp [hp]
      rw [if_pos hb]
      exact lookup_cons_eq (k, v) _ k rfl
    · have hb : (p.1 == k) = false := beq_eq_false_iff_ne.mpr hp
      rw [if_neg (by simp [hb])]
      have h' : rest.any (fun q => q.1 == k) = true := by
        rw [List.any_cons, hb] at h
        simpa using h
      rw [lookup_cons_ne p _ k (fun he => hp he.symm)]
      exact lookup_map_replace rest k v h'

/-- Replacing in place leaves other keys unchanged. -/
theorem lookup_map_replace_ne : ∀ (m : List (Nat × String)) (k k' : Nat)
    (v : String), k' ≠ k →
    (m.map (fun p => if p.1 == k then (k, v) else p)).lookup k' = m.lookup k'
  | [], _, _, _, _ => rfl
  | p :: rest, k, k', v, hne => by
    rw [List.map_cons]
    by_cases hp : p.1 = k
    · have hb : (p.1 == k) = true := by simp [hp]
      rw [if_pos hb, lookup_cons_ne (k, v) _ k' hne,
        lookup_cons_ne p _ k' (by rw [hp]; exact hne)]
      exact lookup_map_replace_ne rest k k' v hne
    · have hb : (p.1 == k) = false := beq_eq_false_iff_ne.mpr hp
      rw [if_neg (by simp [hb])]
      by_cases hk : k' = p.1
      · rw [lookup_cons_eq p _ k' hk, lookup_cons_eq p _ k' hk]
      · rw [lookup_cons_ne p _ k' hk, lookup_cons_ne p _ k' hk]
        exact lookup_map_replace_ne rest k k' v hne

/-- Appending a fresh binding stores the value at the key. -/
theorem lookup_append_miss : ∀ (m : List (Nat × String)) (k : Nat) (v : String),
    m.any (fun p => p.1 == k) = false →
    (m ++ [(k, v)]).lookup k = some v
  | [], k, v, _ => lookup_cons_eq (k, v) [] k rfl
  | p :: rest, k, v, h => by
    rw [List.any_cons] at h
    have hb : (p.1 == k) = false := (Bool.or_eq_false_iff.mp h).1
    have h' : rest.any (fun q => q.1 == k) = false := (Bool.or_eq_false_iff.mp h).2
    rw [List.cons_append,
      lookup_cons_ne p _ k (fun he => by simp [he.symm] at hb)]
    exact lookup_append_miss rest k v h'

/-- Appending a binding for another key changes nothing at this key. -/
theorem lookup_append_single_ne : ∀ (m : List (Nat × String)) (k k' : Nat)
    (v : String), k' ≠ k → (m ++ [(k, v)]).lookup k' = m.lookup k'
  | [], k, k', v, hne => by
    rw [List.nil_append, lookup_cons_ne (k, v) [] k' hne]
  | p :: rest, k, k', v, hne => by
    rw [List.cons_append]
    by_cases hk : k' = p.1
    · rw [lookup_cons_eq p _ k' hk, lookup_cons_eq p _ k' hk]
    · rw [lookup_cons_ne p _ k' hk, lookup_cons_ne p _ k' hk]
      exact lookup_append_single_ne rest k k' v hne

/-- Dict assignment `m[k] = v` makes `m[k]` read back `v`. -/
theorem lookup_dictInsert_self (m : List (Nat × String)) (k : Nat) (v : String) :
    (dictInsert m k v).lookup k = some v := by
  unfold dictInsert
  by_cases h : m.any (fun p => p.1 == k) = true
  · rw [if_pos h]
    exact lookup_map_replace m k v h
  · rw [if_neg h]
    exact lookup_append_miss m k v (Bool.eq_false_iff.mpr h)

/-- Dict assignment leaves other keys unchanged. -/
theorem lookup_dictInsert_ne (m : List (Nat × String)) (k k' : Nat) (v : String)
    (hne : k' ≠ k) : (dictInsert m k v).lookup k' = m.lookup k' := by
  unfold dictInsert
  by_cases h : m.any (fun p => p.1 == k) = true
  · rw [if_pos h]
    exact lookup_map_replace_ne m k k' v hne
  · rw [if_neg h]
    exact lookup_append_single_ne m k k' v hne

/-- Dict assignment never loses keys. -/
theorem lookup_dictInsert_isSome (m : List (Nat × String)) (k k' : Nat)
    (v : String) (h : (m.lookup k').isSome = true) :
    ((dictInsert m k v).lookup k').isSome = true := by
  by_cases he : k' = k
  · subst he
    rw [lookup_dictInsert_self]
    rfl
  · rw [lookup_dictInsert_ne m k k' v he]
    exact h

/-- The latest binding a sequence of dict writes leaves at a key: the last
occurrence of the key in the write list. -/
def lookupLast (l : List (Nat × String)) (k : Nat) : Option String :=
  l.reverse.lookup k

/-- Association-list lookup across an append. -/
theorem lookup_append_or (l1 l2 : List (Nat × String)) (k : Nat) :
    (l1 ++ l2).lookup k = ((l1.lookup k).or (l2.lookup k)) := by
  induction l1 with
  | nil => simp
  | cons a rest ih => by_cases hk : k == a.1 <;> simp [List.lookup, hk, ih]

/-- Folding dict writes over a base map reads back the last write at the
key, falling back to the base map. -/
theorem foldl_dictInsert_lookup : ∀ (writes : List (Nat × String))
    (base : List (Nat × String)) (k : Nat),
    (writes.foldl (fun m p => dictInsert m p.1 p.2) base).lookup k =
      ((lookupLast writes k).or (base.lookup k))
  | [], base, k => by simp [lookupLast]
  | p :: rest, base, k => by
    rw [List.foldl_cons, foldl_dictInsert_lookup rest (dictInsert base p.1 p.2) k]
    have hsplit : lookupLast (p :: rest) k =
        ((lookupLast rest k).or ([p].lookup k)) := by
      show ((p :: rest).reverse.lookup k) = _
      rw [List.reverse_cons, lookup_append_or]
      rfl
    rw [hsplit]
    cases hll : lookupLast rest k with
    | some v => rfl
    | none =>
      by_cases hk : k = p.1
      · subst hk
        rw [lookup_dictInsert_self, lookup_cons_eq p [] p.1 rfl]
        rfl
      · rw [lookup_dictInsert_ne base p.1 k p.2 hk, lookup_cons_ne p [] k hk]
        rfl

/-- A successful fold of the raw failures into the engine-error layer
resolves every failure and keeps an entry alive under its resolved
identifier; pre-existing keys survive. -/
theorem engineErrorsAux_spec : ∀ (cacheRev : List (String × Nat))
    (raw : List RawFailure) (init base : List (Nat × String)),
    (raw.foldlM (fun error f => (resolveFailureId cacheRev f).map
        (fun cid => dictInsert error cid f.reason)) init) = some base →
    (∀ k, ((init.lookup k).isSome = true) → ((base.lookup k).isSome = true))
  ∧ (∀ f ∈ raw, ∃ cid, resolveFailureId cacheRev f = some cid
      ∧ (base.lookup cid).isSome = true)
  | _, [], init, base, h => by
    simp only [List.foldlM_nil] at h
    cases h
    exact ⟨fun _ hk => hk, by simp⟩
  | cacheRev, f :: rest, init, base, h => by
    rw [List.foldlM_cons] at h
    cases hres : resolveFailureId cacheRev f with
    | none =>
      rw [hres] at h
      simp at h
    | some cid =>
      rw [hres] at h
      simp only [Option.map_some', Option.some_bind] at h
      rcases engineErrorsAux_spec cacheRev rest
        (dictInsert init cid f.reason) base h with ⟨hmono, hall⟩
      refine ⟨?_, ?_⟩
      · intro k hk
        exact hmono k (lookup_dictInsert_isSome init cid k f.reason hk)
      · intro g hg
        rcases List.mem_cons.mp hg with rfl | hg'
        · exact ⟨cid, hres, hmono cid (by rw [lookup_dictInsert_self]; rfl)⟩
        · exact hall g hg'

/-- Claim C5: whenever `BulkResponse.errors` builds a merged error map,
every raw-report failure is resolved to a domain identifier — the cache's
reverse direction when its engine handle is cached, otherwise the
identifier parsed out of the engine's error message text — and keeps an
entry in the merged map under that identifier; and every local pre-flight
error wins at its identifier: the merged map returns the (last) local
message there, overwriting any engine-reported error. -/
theorem bulk_response_errors_spec (cacheRev : List (String × Nat))
    (b : BulkResponse) (m : List (Nat × String))
    (h : b.errors cacheRev = some m) :
    (∀ f ∈ b.raw_response.failures, ∃ cid,
        resolveFailureId cacheRev f = some cid
      ∧ (m.lookup cid).isSome = true
      ∧ (cacheRev.lookup f.esId = some cid
          ∨ (cacheRev.lookup f.esId = none ∧ parseIdFromMsg f.reason = some cid)))
  ∧ (∀ i msg, lookupLast b.internal_errors i = some msg →
      m.lookup i = some msg) := by
  unfold BulkResponse.errors at h
  cases he : engineErrorsMap cacheRev b.raw_response.failures with
  | none =>
    rw [he] at h
    cases h
  | some base =>
    rw [he] at h
    simp only [Option.map_some', Option.some.injEq] at h
    subst h
    unfold engineErrorsMap at he
    rcases engineErrorsAux_spec cacheRev b.raw_response.failures [] base he with
      ⟨_, hall⟩
    refine ⟨?_, ?_⟩
    · intro f hf
      rcases hall f hf with ⟨cid, hres, hsome⟩
      refine ⟨cid, hres, ?_, ?_⟩
      · rw [foldl_dictInsert_lookup]
        cases hll : lookupLast b.internal_errors cid with
        | some v => rfl
        | none => simpa using hsome
      · unfold resolveFailureId at hres
        cases hc : cacheRev.lookup f.esId with
        | some c =>
          rw [hc] at hres
          have hres' : some c = some cid := hres
          rw [Option.some.injEq] at hres'
          subst hres'
          exact Or.inl rfl
        | none =>
          rw [hc] at hres
          have hres' : parseIdFromMsg f.reason = some cid := hres
          exact Or.inr ⟨rfl, hres'⟩
    · intro i msg hlast
      rw [foldl_dictInsert_lookup, hlast]
      rfl

/-- Concrete instance of `bulk_response_errors_spec`: one failure resolved
through the cache (handle `h1` → id 7), one through message parsing
(handle `h2` absent, id 42 read from the message), and a local error for
id 7 overwriting the engine's message. -/
theorem bulk_response_errors_spec_witness :
    (([(7, "local"), (42, "fail \"id\":42 x")] : List (Nat × String)).lookup 7
      = some "local")
  ∧ (∃ cid, resolveFailureId [("h1", 7)] ⟨"h2", "fail \"id\":42 x"⟩ = some cid
      ∧ (([(7, "local"), (42, "fail \"id\":42 x")] : List (Nat × String)).lookup
          cid).isSome = true
      ∧ (([("h1", 7)] : List (String × Nat)).lookup "h2" = some cid
          ∨ (([("h1", 7)] : List (String × Nat)).lookup "h2" = none
            ∧ parseIdFromMsg "fail \"id\":42 x" = some cid))) := by
  have h := bulk_response_errors_spec [("h1", 7)]
    ⟨⟨0, [⟨"h1", "boom"⟩, ⟨"h2", "fail \"id\":42 x"⟩]⟩, "update", [(7, "local")]⟩
    [(7, "local"), (42, "fail \"id\":42 x")] rfl
  exact ⟨h.2 7 "local" rfl, h.1 ⟨"h2", "fail \"id\":42 x"⟩ (by simp)⟩

/-- A request entry routed to the fuzzy side: truthy value on a free-text
field (`name` or `locality`). -/
def isFuzzyEntry (p : String × Option String) : Bool :=
  truthy p.2 && (p.1 == "name" || p.1 == "locality")

/-- A request entry routed to the filter side: truthy value on any other
field. -/
def isFilterEntry (p : String × Option String) : Bool :=
  truthy p.2 && !(p.1 == "name" || p.1 == "locality")

/-- The fuzzy clause a routed request entry produces. -/
def routedFuzzy (p : String × Option String) : Clause :=
  SearchQuery.fuzzy_match p.1 (.str ((p.2.getD "").toLower))

/-- The filter clause a routed request entry produces. -/
def routedFilter (p : String × Option String) : Clause :=
  SearchQuery.filter p.1 (.str ((p.2.getD "").toLower))

/-- Any fold step that routes fuzzy entries left and filter entries right
splits the request into the two mapped, filtered lists. -/
theorem foldl_route_split
    (step : (List Clause × List Clause) → (String × Option String) →
      (List Clause × List Clause))
    (hstep : ∀ acc p, step acc p =
      if isFuzzyEntry p then (acc.1 ++ [routedFuzzy p], acc.2)
      else if isFilterEntry p then (acc.1, acc.2 ++ [routedFilter p])
      else acc) :
    ∀ (l : List (String × Option String)) (a b : List Clause),
      l.foldl step (a, b) =
        (a ++ (l.filter isFuzzyEntry).map routedFuzzy,
         b ++ (l.filter isFilterEntry).map routedFilter) := by
  intro l
  induction l with
  | nil => intro a b; simp
  | cons p rest ih =>
    intro a b
    rw [List.foldl_cons, hstep]
    by_cases h1 : isFuzzyEntry p = true
    · have h2 : isFilterEntry p = false := by
        unfold isFuzzyEntry at h1
        unfold isFilterEntry
        rcases (Bool.and_eq_true _ _).mp h1 with ⟨ht, hf⟩
        rw [ht, hf]
        rfl
      rw [if_pos h1, ih]
      simp [List.filter_cons, h1, h2]
    · rw [if_neg h1]
      by_cases h2 : isFilterEntry p = true
      · rw [if_pos h2, ih]
        simp [List.filter_cons, Bool.eq_false_iff.mpr h1, h2]
      · rw [if_neg h2, ih]
        simp [List.filter_cons, Bool.eq_false_iff.mpr h1,
          Bool.eq_false_iff.mpr h2]

/-- `build_query_from_request` routes the request into exactly the fuzzy
clauses of the truthy free-text entries (as the `must` list) and the filter
clauses of the other truthy entries (as the `filter` list), in request
order. -/
theorem build_query_from_request_eq (r : List (String × Option String)) :
    build_query_from_request r =
      { must := (r.filter isFuzzyEntry).map routedFuzzy,
        filter := (r.filter isFilterEntry).map routedFilter } := by
  have hstep : ∀ (acc : List Clause × List Clause)
      (p : String × Option String),
      (match p.2 with
        | some value =>
          if value != "" then
            if p.1 == "name" || p.1 == "locality" then
              (acc.1 ++ [SearchQuery.fuzzy_match p.1 (.str value.toLower)],
                acc.2)
            else
              (acc.1, acc.2 ++ [SearchQuery.filter p.1 (.str value.toLower)])
          else acc
        | none => acc)
      = (if isFuzzyEntry p then (acc.1 ++ [routedFuzzy p], acc.2)
         else if isFilterEntry p then (acc.1, acc.2 ++ [routedFilter p])
         else acc) := by
    intro acc p
    rcases p with ⟨f, v⟩
    cases v with
    | none => simp [isFuzzyEntry, isFilterEntry, truthy]
    | some s =>
      by_cases hs : (s != "") = true
      · by_cases hf : (f == "name" || f == "locality") = true
        · simp [isFuzzyEntry, isFilterEntry, truthy, hs, hf, routedFuzzy]
        · simp [isFuzzyEntry, isFilterEntry, truthy, hs,
            Bool.eq_false_iff.mpr hf, routedFilter]
      · simp [isFuzzyEntry, isFilterEntry, truthy, Bool.eq_false_iff.mpr hs]
  show SearchQuery.build_query
      (r.foldl (fun acc p =>
        match p.2 with
        | some value =>
          if value != "" then
            if p.1 == "name" || p.1 == "locality" then
              (acc.1 ++ [SearchQuery.fuzzy_match p.1 (.str value.toLower)],
                acc.2)
            else
              (acc.1, acc.2 ++ [SearchQuery.filter p.1 (.str value.toLower)])
          else acc
        | none => acc) ([], [])).1
      (some (r.foldl (fun acc p =>
        match p.2 with
        | some value =>
          if value != "" then
            if p.1 == "name" || p.1 == "locality" then
              (acc.1 ++ [SearchQuery.fuzzy_match p.1 (.str value.toLower)],
                acc.2)
            else
              (acc.1, acc.2 ++ [SearchQuery.filter p.1 (.str value.toLower)])
          else acc
        | none => acc) ([], [])).2) = _
  rw [foldl_route_split _ hstep r [] []]
  simp [SearchQuery.build_query]

/-- In a list whose keys are pairwise distinct, a predicate satisfied by
the entry at one key and forcing that key counts exactly one entry. -/
theorem countP_eq_one_of_unique_key {l : List (String × Option String)}
    {p : (String × Option String) → Bool} {x : String × Option String}
    (hnd : (l.map Prod.fst).Nodup) (hmem : x ∈ l) (hx : p x = true)
    (hkey : ∀ y ∈ l, p y = true → y.1 = x.1) :
    l.countP p = 1 := by
  induction l with
  | nil => cases hmem
  | cons a rest ih =>
    rw [List.countP_cons]
    rw [List.map_cons, List.nodup_cons] at hnd
    rcases List.mem_cons.mp hmem with rfl | hmem'
    · have hrest : rest.countP p = 0 := by
        rw [List.countP_eq_zero]
        intro y hy hpy
        have h1 : y.1 = x.1 := hkey y (List.mem_cons_of_mem x hy) hpy
        exact hnd.1 (h1 ▸ List.mem_map_of_mem Prod.fst hy)
      rw [hrest, if_pos hx]
    · have hpa : p a = false := by
        by_cases h : p a = true
        · have h1 : a.1 = x.1 := hkey a (List.mem_cons_self a rest) h
          exact absurd (h1.symm ▸ List.mem_map_of_mem Prod.fst hmem') hnd.1
        · exact Bool.eq_false_iff.mpr h
      rw [ih hnd.2 hmem'
        (fun y hy hpy => hkey y (List.mem_cons_of_mem a hy) hpy), hpa]
      simp

/-- Right cancellation of string concatenation. -/
theorem string_append_cancel_right {a b : String} (s : String)
    (h : a ++ s = b ++ s) : a = b := by
  have hd := congrArg String.data h
  rw [String.data_append, String.data_append] at hd
  exact String.ext (List.append_cancel_right hd)

/-- Claim C9: for a structured request with pairwise-distinct field names
none of which is another field's `.keyword` form, the built query holds
exactly one fuzzy-match clause (on the lower-cased value) for each
non-empty free-text field (`name`, `locality`) and nothing for it on the
filter side; exactly one filter clause for every other non-empty field,
with the value lower-cased and the clause targeting the field's `.keyword`
sub-field, and nothing for it on the must side; and no clause at all, on
either side, for a field that is absent or empty everywhere in the
request. -/
theorem build_query_from_request_routing (r : List (String × Option String))
    (hnd : (r.map Prod.fst).Nodup)
    (hkw : ∀ p ∈ r, ∀ q ∈ r, q.1 ≠ p.1 ++ ".keyword") :
    (∀ f v, (f, some v) ∈ r → v ≠ "" → (f = "name" ∨ f = "locality") →
        (build_query_from_request r).must.countP
            (fun c => c == SearchQuery.fuzzy_match f (.str v.toLower)) = 1
      ∧ (build_query_from_request r).must.countP (mentionsField f) = 1
      ∧ (build_query_from_request r).filter.countP (mentionsField f) = 0)
  ∧ (∀ f v, (f, some v) ∈ r → v ≠ "" → ¬(f = "name" ∨ f = "locality") →
        (build_query_from_request r).filter.countP
            (fun c => c == SearchQuery.filter f (.str v.toLower)) = 1
      ∧ (build_query_from_request r).filter.countP (mentionsField f) = 1
      ∧ (build_query_from_request r).must.countP (mentionsField f) = 0)
  ∧ (∀ f, (∀ p ∈ r, p.1 = f → truthy p.2 = false) →
        (∀ q ∈ r, f ≠ q.1 ++ ".keyword" ∧ q.1 ≠ f ++ ".keyword") →
        (build_query_from_request r).must.countP (mentionsField f) = 0
      ∧ (build_query_from_request r).filter.countP (mentionsField f) = 0) := by
  rw [build_query_from_request_eq]
  have hndF : ((r.filter isFuzzyEntry).map Prod.fst).Nodup :=
    hnd.sublist (List.Sublist.map Prod.fst (List.filter_sublist r))
  have hndG : ((r.filter isFilterEntry).map Prod.fst).Nodup :=
    hnd.sublist (List.Sublist.map Prod.fst (List.filter_sublist r))
  refine ⟨?_, ?_, ?_⟩
  · intro f v hmem hv hform
    have hfree : (f == "name" || f == "locality") = true := by
      rcases hform with rfl | rfl <;> simp
    have htr : truthy (some v) = true := by simp [truthy, hv]
    have hfz : isFuzzyEntry (f, some v) = true := by
      simp [isFuzzyEntry, truthy, hv, hfree]
    have hmemF : (f, some v) ∈ r.filter isFuzzyEntry :=
      List.mem_filter.mpr ⟨hmem, hfz⟩
    refine ⟨?_, ?_, ?_⟩
    · show ((r.filter isFuzzyEntry).map routedFuzzy).countP _ = 1
      rw [List.countP_map]
      refine countP_eq_one_of_unique_key hndF hmemF ?_ ?_
      · simp [Function.comp, routedFuzzy]
      · intro y hy hpy
        simp [Function.comp, routedFuzzy, SearchQuery.fuzzy_match] at hpy
        exact hpy.1
    · show ((r.filter isFuzzyEntry).map routedFuzzy).countP (mentionsField f) = 1
      rw [List.countP_map]
      refine countP_eq_one_of_unique_key hndF hmemF ?_ ?_
      · simp [Function.comp, mentionsField, clauseKey, routedFuzzy,
          SearchQuery.fuzzy_match]
      · intro y hy hpy
        simp [Function.comp, mentionsField, clauseKey, routedFuzzy,
          SearchQuery.fuzzy_match] at hpy
        rcases hpy with h1 | h1
        · exact h1
        · exact absurd h1 (hkw (f, some v) hmem y (List.mem_filter.mp hy).1)
    · show ((r.filter isFilterEntry).map routedFilter).countP (mentionsField f) = 0
      rw [List.countP_map, List.countP_eq_zero]
      intro y hy hpy
      simp [Function.comp, mentionsField, clauseKey, routedFilter,
        SearchQuery.filter] at hpy
      rcases hpy with h1 | h1
      · exact absurd h1.symm (hkw y (List.mem_filter.mp hy).1 (f, some v) hmem)
      · have hy1 : y.1 = f := string_append_cancel_right ".keyword" h1
        have hmf := (List.mem_filter.mp hy).2
        simp [isFilterEntry, hy1, hfree] at hmf
  · intro f v hmem hv hnform
    have h1n : f ≠ "name" := fun he => hnform (Or.inl he)
    have h2n : f ≠ "locality" := fun he => hnform (Or.inr he)
    have hnfree : (f == "name" || f == "locality") = false := by
      simp [h1n, h2n]
    have hfl : isFilterEntry (f, some v) = true := by
      simp [isFilterEntry, truthy, hv, hnfree]
    have hmemG : (f, some v) ∈ r.filter isFilterEntry :=
      List.mem_filter.mpr ⟨hmem, hfl⟩
    refine ⟨?_, ?_, ?_⟩
    · show ((r.filter isFilterEntry).map routedFilter).countP _ = 1
      rw [List.countP_map]
      refine countP_eq_one_of_unique_key hndG hmemG ?_ ?_
      · simp [Function.comp, routedFilter]
      · intro y hy hpy
        simp [Function.comp, routedFilter, SearchQuery.filter] at hpy
        exact string_append_cancel_right ".keyword" hpy.1
    · show ((r.filter isFilterEntry).map routedFilter).countP (mentionsField f) = 1
      rw [List.countP_map]
      refine countP_eq_one_of_unique_key hndG hmemG ?_ ?_
      · simp [Function.comp, mentionsField, clauseKey, routedFilter,
          SearchQuery.filter]
      · intro y hy hpy
        simp [Function.comp, mentionsField, clauseKey, routedFilter,
          SearchQuery.filter] at hpy
        rcases hpy with h1 | h1
        · exact absurd h1.symm (hkw y (List.mem_filter.mp hy).1 (f, some v) hmem)
        · exact string_append_cancel_right ".keyword" h1
    · show ((r.filter isFuzzyEntry).map routedFuzzy).countP (mentionsField f) = 0
      rw [List.countP_map, List.countP_eq_zero]
      intro y hy hpy
      simp [Function.comp, mentionsField, clauseKey, routedFuzzy,
        SearchQuery.fuzzy_match] at hpy
      rcases hpy with h1 | h1
      · have hmf := (List.mem_filter.mp hy).2
        simp [isFuzzyEntry, h1, hnfree] at hmf
      · exact absurd h1 (hkw (f, some v) hmem y (List.mem_filter.mp hy).1)
  · intro f hall hkw3
    constructor
    · show ((r.filter isFuzzyEntry).map routedFuzzy).countP (mentionsField f) = 0
      rw [List.countP_map, List.countP_eq_zero]
      intro y hy hpy
      simp [Function.comp, mentionsField, clauseKey, routedFuzzy,
        SearchQuery.fuzzy_match] at hpy
      have hyr := (List.mem_filter.mp hy).1
      have hmf := (List.mem_filter.mp hy).2
      rcases hpy with h1 | h1
      · have ht := hall y hyr h1
        simp [isFuzzyEntry, ht] at hmf
      · exact absurd h1 ((hkw3 y hyr).2)
    · show ((r.filter isFilterEntry).map routedFilter).countP (mentionsField f) = 0
      rw [List.countP_map, List.countP_eq_zero]
      intro y hy hpy
      simp [Function.comp, mentionsField, clauseKey, routedFilter,
        SearchQuery.filter] at hpy
      have hyr := (List.mem_filter.mp hy).1
      have hmf := (List.mem_filter.mp hy).2
      rcases hpy with h1 | h1
      · exact absurd h1.symm ((hkw3 y hyr).1)
      · have hy1 : y.1 = f := string_append_cancel_right ".keyword" h1
        have ht := hall y hyr hy1
        simp [isFilterEntry, ht] at hmf

/-- Concrete instance of `build_query_from_request_routing`: the request
`{name: "Acme", country: "US", locality: ""}` yields exactly one fuzzy
clause for `name`, exactly one filter clause for `country`, and no clause
at all for the empty `locality`. -/
theorem build_query_from_request_routing_witness :
    (build_query_from_request
        [("name", some "Acme"), ("country", some "US"), ("locality", some "")]).must.countP
      (fun c => c == SearchQuery.fuzzy_match "name" (.str "Acme".toLower)) = 1
  ∧ (build_query_from_request
        [("name", some "Acme"), ("country", some "US"), ("locality", some "")]).filter.countP
      (fun c => c == SearchQuery.filter "country" (.str "US".toLower)) = 1
  ∧ (build_query_from_request
        [("name", some "Acme"), ("country", some "US"), ("locality", some "")]).must.countP
      (mentionsField "locality") = 0
  ∧ (build_query_from_request
        [("name", some "Acme"), ("country", some "US"), ("locality", some "")]).filter.countP
      (mentionsField "locality") = 0 := by
  have h := build_query_from_request_routing
    [("name", some "Acme"), ("country", some "US"), ("locality", some "")]
    (by decide) (by decide)
  refine ⟨(h.1 "name" "Acme" (by decide) (by decide) (Or.inl rfl)).1,
    (h.2.1 "country" "US" (by decide) (by decide) (by decide)).1,
    (h.2.2 "locality" (by decide) (by decide)).1,
    (h.2.2 "locality" (by decide) (by decide)).2⟩

end CompanyApi
